import Mathlib

/-!
Verification of the caption segmentation / delta-emission core of the
AI-Bot-for-Multiple-Calendar repository (`backend/bot.py`).

Strings are modelled as `List Char`; Python floats (timestamps) are modelled
as `ℚ`; Python's Unicode-aware character classes (`str.isalnum`,
`str.isspace`, `str.lower`) are modelled by Lean's ASCII `Char.isAlphanum`,
`Char.isWhitespace`, `Char.toLower` — faithful on the ASCII range.
Python dicts are modelled as insertion-ordered association lists.
-/

namespace CaptionBot

abbrev Str := List Char

/-- Python `str.strip()`: drop whitespace from both ends. -/
def stripChars (s : Str) : Str :=
  ((s.dropWhile Char.isWhitespace).reverse.dropWhile Char.isWhitespace).reverse

/-- Loop body of `CaptionSegmenter._norm` (bot.py lines 837-847): keep
alphanumeric characters, collapse every maximal run of other characters to a
single space (`last_space` tracks whether a space was just appended). -/
def normLoop : Str → Bool → Str
  | [], _ => []
  | ch :: rest, lastSpace =>
    if ch.isAlphanum then ch :: normLoop rest false
    else if lastSpace then normLoop rest true
    else ' ' :: normLoop rest true

/-- `CaptionSegmenter._norm` (bot.py lines 834-847): lowercase, collapse
non-alphanumeric runs to single spaces, strip. -/
def norm (s : Str) : Str :=
  stripChars (normLoop (s.map Char.toLower) false)

/-! ### Embedding of `difflib.SequenceMatcher(None, a, b).ratio()`

`_should_merge` calls CPython's difflib with `isjunk=None` (so the junk set
is empty) and the default `autojunk=True`.  The pieces below mirror
CPython's `difflib.py`: `__chain_b` (index table `b2j` with the autojunk
purge of popular elements when `len(b) >= 200`), `find_longest_match`
(dynamic-programming scan plus the non-junk extension loops; the junk
extension loops are no-ops because the junk set is empty), the
`get_matching_blocks` work queue, and `ratio = 2*M/T`. -/

/-- Indices (in increasing order) at which character `c` occurs in `b`. -/
def indicesOf (b : Str) (c : Char) : List Nat :=
  ((List.range b.length).filter (fun j => b.getD j ' ' = c))

/-- `b2j` lookup: occurrence indices of `c` in `b`, with CPython's autojunk
purge: when `len(b) >= 200`, elements occurring more than `len(b)//100 + 1`
times are removed from the table. -/
def b2j (b : Str) (c : Char) : List Nat :=
  let idxs := indicesOf b c
  if 200 ≤ b.length ∧ b.length / 100 + 1 < idxs.length then [] else idxs

/-- Lookup in the `j2len` association table, defaulting to `0`. -/
def lookupD (l : List (Nat × Nat)) (k : Nat) : Nat :=
  match l.find? (fun p => p.1 == k) with
  | some p => p.2
  | none => 0

/-- Inner loop of `find_longest_match` over `b2j[a[i]]`: skip `j < blo`,
stop at the first `j ≥ bhi` (CPython's `break`; the index lists are
increasing), record `newj2len[j] = j2len.get(j-1, 0) + 1` and track the best
block.  Returns the new table and the updated best `(besti, bestj, bestsize)`. -/
def flmInner (i blo bhi : Nat) (j2old : List (Nat × Nat)) :
    List Nat → List (Nat × Nat) → Nat × Nat × Nat → List (Nat × Nat) × (Nat × Nat × Nat)
  | [], acc, best => (acc, best)
  | j :: js, acc, best =>
    if j < blo then flmInner i blo bhi j2old js acc best
    else if bhi ≤ j then (acc, best)
    else
      let k := (if j = 0 then 0 else lookupD j2old (j - 1)) + 1
      let best' := if best.2.2 < k then (i + 1 - k, j + 1 - k, k) else best
      flmInner i blo bhi j2old js ((j, k) :: acc) best'

/-- Outer loop of `find_longest_match` over `i ∈ [alo, ahi)`. -/
def flmOuter (a b : Str) (blo bhi : Nat) :
    List Nat → List (Nat × Nat) → Nat × Nat × Nat → Nat × Nat × Nat
  | [], _, best => best
  | i :: is_, j2len, best =>
    let step := flmInner i blo bhi j2len (b2j b (a.getD i ' ')) [] best
    flmOuter a b blo bhi is_ step.1 step.2

/-- Left extension loop of `find_longest_match` (equal elements before the
block; the junk set is empty so `isbjunk` is always false).  Fuel-driven,
with enough fuel the loop runs to completion. -/
def extendLeft (a b : Str) (alo blo : Nat) : Nat → Nat × Nat × Nat → Nat × Nat × Nat
  | 0, best => best
  | fuel + 1, (bi, bj, bs) =>
    if alo < bi ∧ blo < bj ∧ a.getD (bi - 1) ' ' = b.getD (bj - 1) ' ' then
      extendLeft a b alo blo fuel (bi - 1, bj - 1, bs + 1)
    else (bi, bj, bs)

/-- Right extension loop of `find_longest_match`. -/
def extendRight (a b : Str) (ahi bhi : Nat) : Nat → Nat × Nat × Nat → Nat × Nat × Nat
  | 0, best => best
  | fuel + 1, (bi, bj, bs) =>
    if bi + bs < ahi ∧ bj + bs < bhi ∧ a.getD (bi + bs) ' ' = b.getD (bj + bs) ' ' then
      extendRight a b ahi bhi fuel (bi, bj, bs + 1)
    else (bi, bj, bs)

/-- `SequenceMatcher.find_longest_match(alo, ahi, blo, bhi)`. -/
def findLongestMatch (a b : Str) (alo ahi blo bhi : Nat) : Nat × Nat × Nat :=
  let best := flmOuter a b blo bhi (List.range' alo (ahi - alo)) [] (alo, blo, 0)
  let best := extendLeft a b alo blo (a.length + 1) best
  extendRight a b ahi bhi (a.length + 1) best

/-- Work-queue recursion of `get_matching_blocks`, summing the sizes of all
matching blocks (the sum is all `ratio` needs).  Each queue entry spawns
subproblems of strictly smaller total size, so fuel `len(a)+len(b)+1` is
enough for the initial problem. -/
def matchingTotal (a b : Str) : Nat → List (Nat × Nat × Nat × Nat) → Nat
  | 0, _ => 0
  | _ + 1, [] => 0
  | fuel + 1, (alo, ahi, blo, bhi) :: queue =>
    let m := findLongestMatch a b alo ahi blo bhi
    let i := m.1
    let j := m.2.1
    let k := m.2.2
    if k = 0 then matchingTotal a b fuel queue
    else
      let queue := if alo < i ∧ blo < j then (alo, i, blo, j) :: queue else queue
      let queue := if i + k < ahi ∧ j + k < bhi then (i + k, ahi, j + k, bhi) :: queue else queue
      k + matchingTotal a b fuel queue

/-- Total matched size of `SequenceMatcher(None, a, b).get_matching_blocks()`. -/
def seqMatches (a b : Str) : Nat :=
  matchingTotal a b (a.length + b.length + 1) [(0, a.length, 0, b.length)]

/-- `SequenceMatcher(None, a, b).ratio() >= 0.80`.  The ratio is
`2*M/(len(a)+len(b))` (defined as `1.0` when both are empty).  Over the
rationals, `2*M/T ≥ 4/5 ↔ 5*M ≥ 2*T`; the float comparison in the source
decides the same predicate, because `2.0*M/T` and the literal `0.80` round to
doubles on the same side of `4/5` whenever `T` is far below `10^16` (the
nearest rational `2M/T` can get to `4/5` without equalling it is `1/(5T)`,
far above the double rounding error near `0.8`). -/
def ratioGE80 (a b : Str) : Bool :=
  decide (2 * (a.length + b.length) ≤ 5 * seqMatches a b)

/-- `CaptionSegmenter._should_merge` (bot.py lines 849-876), translated
clause by clause; `difflib.SequenceMatcher(...).ratio()` never raises, so the
`except` branch is dead. -/
def should_merge (prev curr : Str) : Bool :=
  if prev = [] then true
  else if curr = [] then false
  else if prev <+: curr ∨ curr <+: prev then true
  else if norm prev = [] ∨ norm curr = [] then true
  else if norm prev <+: norm curr ∨ norm curr <+: norm prev then true
  else if norm prev <:+: norm curr ∨ norm curr <:+: norm prev then true
  else if (if 24 < (norm prev).length then (norm prev).drop ((norm prev).length - 24)
           else norm prev) ≠ [] ∧
          (if 24 < (norm prev).length then (norm prev).drop ((norm prev).length - 24)
           else norm prev) <:+: norm curr then true
  else ratioGE80 (norm prev) (norm curr)

/-- The ordered decision list exactly as the specification words it
(spec §4.2, steps 1-8): previous empty → merge; current empty → no merge;
raw prefix either way → merge; a normalized form empty → merge; normalized
prefix or substring relation in either direction → merge; the last at-most-24
characters of normalized previous occurring anywhere in normalized current →
merge; similarity ratio ≥ 0.80 → merge; otherwise no merge. -/
def shouldMergeSpec (prev curr : Str) : Bool :=
  if prev = [] then true
  else if curr = [] then false
  else if prev <+: curr ∨ curr <+: prev then true
  else if norm prev = [] ∨ norm curr = [] then true
  else if norm prev <+: norm curr ∨ norm curr <+: norm prev ∨
          norm prev <:+: norm curr ∨ norm curr <:+: norm prev then true
  else if (norm prev).drop ((norm prev).length - 24) <:+: norm curr then true
  else ratioGE80 (norm prev) (norm curr)

-- sanity checks (concrete evaluations of the embedded code)
example : norm "  Hello,   WORLD!! ".toList = "hello world".toList := by decide
example : should_merge "Hello".toList "Hello wor".toList = true := by decide
example : should_merge "Hello".toList "Goodbye".toList = false := by decide
-- ratio branch: matches "abcd" of "abcde"/"abcdX" give 2*4/10 = 0.8 ≥ 0.8
example : should_merge "qabcde".toList "abcdX".toList = false := by decide
example : ratioGE80 "abcde".toList "abcdX".toList = true := by decide
example : ratioGE80 "abcd".toList "abce".toList = false := by decide

/-- The last at-most-24 characters of a non-empty string form a non-empty
string. -/
theorem dropTail_ne_nil (p : Str) (hp : p ≠ []) : p.drop (p.length - 24) ≠ [] := by
  have hlen : 0 < p.length := List.length_pos.mpr hp
  intro h
  have := congrArg List.length h
  simp only [List.length_drop, List.length_nil] at this
  omega

/-- C1: `should_merge` returns true exactly when the first matching rule of
the spec's ordered decision list fires as a merge: previous empty → merge;
else current empty → no merge; else one raw string a prefix of the other →
merge; else a normalized form empty → merge; else normalized prefix or
substring relation in either direction → merge; else the last at-most-24
characters of normalized previous occurring anywhere in normalized current →
merge; else similarity ratio ≥ 0.80 → merge; otherwise no merge. -/
theorem c1_should_merge_decision_list (prev curr : Str) :
    should_merge prev curr = shouldMergeSpec prev curr := by
  have htail : (if 24 < (norm prev).length then (norm prev).drop ((norm prev).length - 24)
      else norm prev) = (norm prev).drop ((norm prev).length - 24) := by
    split_ifs with h
    · rfl
    · have h0 : (norm prev).length - 24 = 0 := by omega
      rw [h0, List.drop_zero]
  unfold should_merge shouldMergeSpec
  rw [htail]
  by_cases h1 : prev = []
  · simp [h1]
  by_cases h2 : curr = []
  · simp [h1, h2]
  by_cases h3 : prev <+: curr ∨ curr <+: prev
  · simp [h1, h2, h3]
  by_cases h4 : norm prev = [] ∨ norm curr = []
  · simp [h1, h2, h3, h4]
  have hp : norm prev ≠ [] := fun h => h4 (Or.inl h)
  have hne : (norm prev).drop ((norm prev).length - 24) ≠ [] := dropTail_ne_nil _ hp
  by_cases ha : norm prev <+: norm curr <;>
  by_cases hb : norm curr <+: norm prev <;>
  by_cases hc : norm prev <:+: norm curr <;>
  by_cases hd : norm curr <:+: norm prev <;>
  by_cases h7 : (norm prev).drop ((norm prev).length - 24) <:+: norm curr <;>
    simp [h1, h2, h3, h4, ha, hb, hc, hd, h7, hne]

-- Core `Rat.sub` is `@[irreducible]`; re-allow unfolding it so that concrete
-- timestamp arithmetic evaluates inside `decide`/`rfl` proofs.
unseal Rat.sub

/-- The rational 1/2, as a raw (already normalized) literal, so that kernel
evaluation of timestamp arithmetic is not blocked by `Rat.div`. -/
def halfQ : ℚ := ⟨1, 2, by decide, by decide⟩

/-! ### Association-list model of Python dicts (insertion-ordered, unique keys) -/

/-- `dict.get(k)`: the value of the first entry with key `k`. -/
def lookupA {α β : Type} [DecidableEq α] : List (α × β) → α → Option β
  | [], _ => none
  | (k', v) :: rest, k => if k' = k then some v else lookupA rest k

/-- `dict[k] = v`: replace the first entry with key `k` in place, or append. -/
def setA {α β : Type} [DecidableEq α] : List (α × β) → α → β → List (α × β)
  | [], k, v => [(k, v)]
  | (k', v') :: rest, k, v =>
    if k' = k then (k, v) :: rest else (k', v') :: setA rest k v

/-! ### CaptionSegmenter (bot.py lines 793-984) -/

/-- `Segment` dataclass (bot.py lines 793-798). -/
structure Segment where
  combined : Str
  frag : Str
  started_at : ℚ
  updated_at : ℚ
  deriving DecidableEq

/-- The segmenter's tunables (bot.py lines 812-827). -/
structure SegConfig where
  merge_consecutive : Bool
  idle_seconds : ℚ
  merge_gap_seconds : ℚ
  max_segment_seconds : ℚ
  revision_window_seconds : ℚ
  force_split_gap_seconds : ℚ
  deriving DecidableEq

/-- The segmenter's mutable state: per-speaker drafts (`self._segments`) and
the queue of completed fragments awaiting the idle timer (`self._completed`,
entries `(speaker, text, t_updated)`), bot.py lines 829-832. -/
structure SegState where
  segments : List (Str × Segment)
  completed : List (Str × Str × ℚ)
  deriving DecidableEq

/-- `CaptionSegmenter._segment_text` (bot.py lines 878-884). -/
def segment_text (seg : Segment) : Str :=
  if stripChars seg.combined ≠ [] ∧ stripChars seg.frag ≠ [] then
    stripChars (stripChars seg.combined ++ ' ' :: stripChars seg.frag)
  else stripChars (if stripChars seg.combined ≠ [] then stripChars seg.combined
                   else stripChars seg.frag)

/-- The split-and-restart block that `update` repeats at bot.py lines
918-921, 931-934 and 942-945: queue the draft's materialized text (when
non-empty) with the draft's `updated_at`, and replace the draft by a fresh
one holding the new text. -/
def split_and_restart (st : SegState) (speaker text : Str) (seg : Segment) (now : ℚ) :
    SegState :=
  { segments := setA st.segments speaker ⟨[], text, now, now⟩,
    completed :=
      if segment_text seg ≠ [] then st.completed ++ [(speaker, segment_text seg, seg.updated_at)]
      else st.completed }

set_option linter.unusedVariables false in
/-- `CaptionSegmenter.update` (bot.py lines 886-959).  The event timestamp
`ts` is a parameter of the Python method but is never read by its body: every
time used is `now = time.time()`, the wall clock read inside the call. -/
def update (cfg : SegConfig) (st : SegState) (speaker text : Str) (ts now : ℚ) : SegState :=
  if text = [] then st
  else
    match lookupA st.segments speaker with
    | none => { st with segments := setA st.segments speaker ⟨[], text, now, now⟩ }
    | some seg =>
      let gap := now - seg.updated_at
      -- Long gap: force a split even if the new text is a prefix-growth resend.
      if cfg.force_split_gap_seconds < gap then split_and_restart st speaker text seg now
      else if gap ≤ cfg.revision_window_seconds ∧ should_merge seg.frag text = true then
        { st with segments := setA st.segments speaker { seg with frag := text, updated_at := now } }
      -- Outside the revision window and not a revision: split.
      else if cfg.revision_window_seconds < gap ∧ should_merge seg.frag text = false then
        split_and_restart st speaker text seg now
      else if cfg.merge_consecutive then
        if cfg.merge_gap_seconds < gap then split_and_restart st speaker text seg now
        else
          let frag := stripChars seg.frag
          let seg' :=
            if frag ≠ [] then
              { seg with combined :=
                  if stripChars seg.combined ≠ [] then
                    stripChars (stripChars seg.combined ++ ' ' :: frag)
                  else frag }
            else seg
          { st with segments := setA st.segments speaker { seg' with frag := text, updated_at := now } }
      -- Incremental mode: keep only latest draft; emit later via idle flush.
      else
        { st with segments := setA st.segments speaker { seg with frag := text, updated_at := now } }

/-- Readiness test for a queued completed fragment (bot.py line 971). -/
def flushDue (cfg : SegConfig) (now : ℚ) (e : Str × Str × ℚ) : Bool :=
  decide (cfg.idle_seconds ≤ now - e.2.2)

/-- Readiness test for a live draft: `stable or too_long`
(bot.py lines 978-980). -/
def draftDue (cfg : SegConfig) (now : ℚ) (seg : Segment) : Bool :=
  decide (cfg.idle_seconds ≤ now - seg.updated_at) ||
  decide (cfg.max_segment_seconds ≤ now - seg.started_at)

/-- `CaptionSegmenter.flush_ready` (bot.py lines 961-984): first the due
completed fragments (keeping the rest), then every due draft, each flushed as
`(speaker, segment_text, updated_at)` and popped from the draft dict.
Iterating a dict and popping the due keys is `filter` on the ordered
association list (keys of a Python dict are unique). -/
def flush_ready (cfg : SegConfig) (st : SegState) (now : ℚ) :
    List (Str × Str × ℚ) × SegState :=
  (st.completed.filter (flushDue cfg now) ++
     (st.segments.filter (fun p => draftDue cfg now p.2)).map
       (fun p => (p.1, segment_text p.2, p.2.updated_at)),
   { segments := st.segments.filter (fun p => !draftDue cfg now p.2),
     completed := st.completed.filter (fun e => !flushDue cfg now e) })

/-- Defaults of the recognized tunables (spec §6; incremental mode). -/
def defaultConfig : SegConfig :=
  { merge_consecutive := false
    idle_seconds := 2
    merge_gap_seconds := 1
    max_segment_seconds := 20
    revision_window_seconds := 8
    force_split_gap_seconds := 30 }

-- sanity: the three-revision scenario collapses to one utterance
example :
    flush_ready defaultConfig
      (update defaultConfig
        (update defaultConfig
          (update defaultConfig ⟨[], []⟩ "Alice".toList "Hello".toList 0 0)
          "Alice".toList "Hello wor".toList halfQ halfQ)
        "Alice".toList "Hello world".toList 1 1) 3 =
    ([("Alice".toList, "Hello world".toList, 1)], ⟨[], []⟩) := by decide

/-! ### Association-list lemmas -/

theorem mem_of_lookupA {α β : Type} [DecidableEq α] (m : List (α × β)) (k : α) (v : β)
    (h : lookupA m k = some v) : (k, v) ∈ m := by
  induction m with
  | nil => simp [lookupA] at h
  | cons e rest ih =>
    obtain ⟨k', v'⟩ := e
    simp only [lookupA] at h
    by_cases hk : k' = k
    · rw [if_pos hk] at h
      obtain rfl := hk
      obtain rfl : v' = v := by injection h
      exact List.mem_cons_self _ _
    · rw [if_neg hk] at h
      exact List.mem_cons_of_mem _ (ih h)

theorem lookupA_filter_of_keep {α β : Type} [DecidableEq α] (p : α × β → Bool)
    (m : List (α × β)) (k : α) (v : β)
    (hl : lookupA m k = some v) (hp : p (k, v) = true) :
    lookupA (m.filter p) k = some v := by
  induction m with
  | nil => simp [lookupA] at hl
  | cons e rest ih =>
    obtain ⟨k', v'⟩ := e
    simp only [lookupA] at hl
    by_cases hk : k' = k
    · rw [if_pos hk] at hl
      obtain rfl := hk
      obtain rfl : v' = v := by injection hl
      rw [List.filter_cons, if_pos hp]
      simp [lookupA]
    · rw [if_neg hk] at hl
      rw [List.filter_cons]
      by_cases hpe : p (k', v') = true
      · rw [if_pos hpe]
        simp only [lookupA, if_neg hk]
        exact ih hl
      · rw [if_neg hpe]
        exact ih hl

theorem lookupA_eq_none_of_not_mem_keys {α β : Type} [DecidableEq α]
    (m : List (α × β)) (k : α) (h : k ∉ m.map Prod.fst) : lookupA m k = none := by
  induction m with
  | nil => rfl
  | cons e rest ih =>
    obtain ⟨k', v'⟩ := e
    simp only [List.map_cons, List.mem_cons] at h
    push_neg at h
    have hk : ¬ k' = k := fun e => h.1 e.symm
    simp only [lookupA, if_neg hk]
    exact ih h.2

theorem lookupA_filter_of_drop {α β : Type} [DecidableEq α] (p : α × β → Bool)
    (m : List (α × β)) (k : α) (v : β)
    (hnd : (m.map Prod.fst).Nodup) (hl : lookupA m k = some v) (hp : p (k, v) = false) :
    lookupA (m.filter p) k = none := by
  induction m with
  | nil => simp [lookupA] at hl
  | cons e rest ih =>
    obtain ⟨k', v'⟩ := e
    simp only [List.map_cons, List.nodup_cons] at hnd
    simp only [lookupA] at hl
    by_cases hk : k' = k
    · rw [if_pos hk] at hl
      obtain rfl := hk
      obtain rfl : v' = v := by injection hl
      rw [List.filter_cons, if_neg (by simp [hp])]
      refine lookupA_eq_none_of_not_mem_keys _ _ ?_
      intro hmem
      apply hnd.1
      obtain ⟨e, he, rfl⟩ := List.mem_map.mp hmem
      exact List.mem_map.mpr ⟨e, List.mem_of_mem_filter he, rfl⟩
    · rw [if_neg hk] at hl
      rw [List.filter_cons]
      by_cases hpe : p (k', v') = true
      · rw [if_pos hpe]
        simp only [lookupA, if_neg hk]
        exact ih hnd.2 hl
      · rw [if_neg hpe]
        exact ih hnd.2 hl

/-! ### Behaviour of `update` on the individual branches -/

/-- Merge branch (bot.py lines 924-927): inside the revision window with a
merging text, only `frag` and `updated_at` of the draft change. -/
theorem update_merge (cfg : SegConfig) (st : SegState) (speaker text : Str) (seg : Segment)
    (ts now : ℚ)
    (htext : text ≠ [])
    (hseg : lookupA st.segments speaker = some seg)
    (hfs : ¬ cfg.force_split_gap_seconds < now - seg.updated_at)
    (hgap : now - seg.updated_at ≤ cfg.revision_window_seconds)
    (hm : should_merge seg.frag text = true) :
    update cfg st speaker text ts now =
      { st with segments :=
          (setA st.segments speaker { seg with frag := text, updated_at := now }) } := by
  unfold update
  rw [if_neg htext, hseg]
  simp only [if_neg hfs, if_pos (And.intro hgap hm)]

/-- Force-split branch (bot.py lines 917-922): after a gap above
`force_split_gap_seconds`, the (non-empty) materialized draft text is queued
with the draft's `updated_at` and a fresh draft holds the new text. -/
theorem update_force_split (cfg : SegConfig) (st : SegState) (speaker text : Str)
    (seg : Segment) (ts now : ℚ)
    (htext : text ≠ [])
    (hseg : lookupA st.segments speaker = some seg)
    (hfs : cfg.force_split_gap_seconds < now - seg.updated_at)
    (hne : segment_text seg ≠ []) :
    update cfg st speaker text ts now =
      { segments := setA st.segments speaker ⟨[], text, now, now⟩,
        completed := st.completed ++ [(speaker, segment_text seg, seg.updated_at)] } := by
  unfold update
  rw [if_neg htext, hseg]
  simp only [if_pos hfs, split_and_restart, if_pos hne]

/-- C9: the segmenter's `update` ignores its `ts` argument entirely — two
calls differing only in `ts`, performed at the same wall-clock instant `now`,
produce identical post-states (draft map and completed queue alike), because
every gap computation and stored timestamp uses the wall clock read inside
the call. -/
theorem c9_update_ignores_event_timestamp (cfg : SegConfig) (st : SegState)
    (speaker text : Str) (ts₁ ts₂ now : ℚ) :
    update cfg st speaker text ts₁ now = update cfg st speaker text ts₂ now := rfl

/-- C2: inside the revision window, a merging event only overwrites the
draft's fragment and last-update time — no split, no queued segment (the
hypothesis `revision_window_seconds ≤ force_split_gap_seconds` holds for the
documented defaults 8 and 30); consequently "Hello", "Hello wor",
"Hello world" from "Alice" at 0.5s intervals yield, once the idle window has
elapsed, exactly one utterance "Hello world" — not three. -/
theorem c2_revision_collapsing :
    (∀ (cfg : SegConfig) (st : SegState) (speaker text : Str) (seg : Segment) (ts now : ℚ),
      text ≠ [] →
      lookupA st.segments speaker = some seg →
      cfg.revision_window_seconds ≤ cfg.force_split_gap_seconds →
      now - seg.updated_at ≤ cfg.revision_window_seconds →
      should_merge seg.frag text = true →
      update cfg st speaker text ts now =
        { st with segments :=
            (setA st.segments speaker { seg with frag := text, updated_at := now }) })
    ∧
    flush_ready defaultConfig
      (update defaultConfig
        (update defaultConfig
          (update defaultConfig ⟨[], []⟩ "Alice".toList "Hello".toList 0 0)
          "Alice".toList "Hello wor".toList halfQ halfQ)
        "Alice".toList "Hello world".toList 1 1) 3 =
      ([("Alice".toList, "Hello world".toList, 1)], ⟨[], []⟩) := by
  constructor
  · intro cfg st speaker text seg ts now htext hseg hrf hgap hm
    have hfs : ¬ cfg.force_split_gap_seconds < now - seg.updated_at := by
      intro h
      exact absurd (le_trans hgap hrf) (not_le.mpr h)
    exact update_merge cfg st speaker text seg ts now htext hseg hfs hgap hm
  · decide

/-- Witness for C2's universally quantified part: a concrete in-window
revision only rewrites the draft's fragment and update time. -/
theorem c2_revision_collapsing_witness :
    update defaultConfig ⟨[("A".toList, ⟨[], "Hi".toList, 0, 0⟩)], []⟩
        "A".toList "Hi there".toList 5 1 =
      { segments := (setA [("A".toList, (⟨[], "Hi".toList, 0, 0⟩ : Segment))] "A".toList
          { (⟨[], "Hi".toList, 0, 0⟩ : Segment) with frag := "Hi there".toList, updated_at := 1 }),
        completed := [] } :=
  c2_revision_collapsing.1 defaultConfig ⟨[("A".toList, ⟨[], "Hi".toList, 0, 0⟩)], []⟩
    "A".toList "Hi there".toList ⟨[], "Hi".toList, 0, 0⟩ 5 1
    (by decide) (by decide) (by decide) (by decide) (by decide)

/-- C3: a gap above `force_split_gap_seconds` queues the draft's full
materialized text (committed plus fragment, here assumed non-empty — an
all-whitespace draft queues nothing) as a completed segment and restarts the
draft with the new text, regardless of textual similarity; "Hello" at t=0
followed by "Goodbye" at t=40 yields two separate utterances. -/
theorem c3_force_split_long_gap :
    (∀ (cfg : SegConfig) (st : SegState) (speaker text : Str) (seg : Segment) (ts now : ℚ),
      text ≠ [] →
      lookupA st.segments speaker = some seg →
      cfg.force_split_gap_seconds < now - seg.updated_at →
      segment_text seg ≠ [] →
      update cfg st speaker text ts now =
        { segments := setA st.segments speaker ⟨[], text, now, now⟩,
          completed := st.completed ++ [(speaker, segment_text seg, seg.updated_at)] })
    ∧
    flush_ready defaultConfig
      (update defaultConfig
        (update defaultConfig ⟨[], []⟩ "Sam".toList "Hello".toList 0 0)
        "Sam".toList "Goodbye".toList 40 40) 42 =
      ([("Sam".toList, "Hello".toList, 0), ("Sam".toList, "Goodbye".toList, 40)],
        ⟨[], []⟩) := by
  refine ⟨?_, by decide⟩
  intro cfg st speaker text seg ts now htext hseg hfs hne
  exact update_force_split cfg st speaker text seg ts now htext hseg hfs hne

/-- Witness for C3's universally quantified part: a concrete long-gap event
splits the draft even though the texts are similar (a prefix resend). -/
theorem c3_force_split_long_gap_witness :
    update defaultConfig ⟨[("B".toList, ⟨[], "Hey".toList, 0, 0⟩)], []⟩
        "B".toList "Hey you".toList 31 31 =
      { segments := setA [("B".toList, (⟨[], "Hey".toList, 0, 0⟩ : Segment))] "B".toList
          ⟨[], "Hey you".toList, 31, 31⟩,
        completed := [("B".toList, "Hey".toList, 0)] } :=
  c3_force_split_long_gap.1 defaultConfig ⟨[("B".toList, ⟨[], "Hey".toList, 0, 0⟩)], []⟩
    "B".toList "Hey you".toList ⟨[], "Hey".toList, 0, 0⟩ 31 31
    (by decide) (by decide) (by decide) (by decide)

/-- A config with a short max-segment cap (5s) used to exercise the cap
boundary; all other tunables as the defaults. -/
def capConfig : SegConfig :=
  { merge_consecutive := false
    idle_seconds := 2
    merge_gap_seconds := 1
    max_segment_seconds := 5
    revision_window_seconds := 8
    force_split_gap_seconds := 30 }

/-- C4: on a flush tick a live draft is flushed (as
`(speaker, segment_text, updated_at)`) and removed from the per-speaker map
exactly when no update has occurred for at least `idle_seconds` or its age
since `started_at` is at least `max_segment_seconds`; and concretely, a
draft revised every second (never idle) is still flushed once its age
reaches the cap. -/
theorem c4_flush_idle_or_cap :
    (∀ (cfg : SegConfig) (st : SegState) (now : ℚ) (speaker : Str) (seg : Segment),
      (st.segments.map Prod.fst).Nodup →
      lookupA st.segments speaker = some seg →
      ((cfg.idle_seconds ≤ now - seg.updated_at ∨
          cfg.max_segment_seconds ≤ now - seg.started_at) →
        (speaker, segment_text seg, seg.updated_at) ∈ (flush_ready cfg st now).1 ∧
        lookupA (flush_ready cfg st now).2.segments speaker = none) ∧
      (¬ (cfg.idle_seconds ≤ now - seg.updated_at ∨
          cfg.max_segment_seconds ≤ now - seg.started_at) →
        lookupA (flush_ready cfg st now).2.segments speaker = some seg))
    ∧
    flush_ready capConfig
      (update capConfig (update capConfig (update capConfig
        (update capConfig (update capConfig ⟨[], []⟩
          "Eve".toList "a".toList 0 0)
          "Eve".toList "ab".toList 1 1)
          "Eve".toList "abc".toList 2 2)
          "Eve".toList "abcd".toList 3 3)
          "Eve".toList "abcde".toList 4 4) 5 =
      ([("Eve".toList, "abcde".toList, 4)], ⟨[], []⟩) := by
  constructor
  · intro cfg st now speaker seg hnd hseg
    constructor
    · intro hdue
      have hdueB : draftDue cfg now seg = true := by
        simp only [draftDue, Bool.or_eq_true, decide_eq_true_eq]
        exact hdue
      constructor
      · apply List.mem_append_right
        apply List.mem_map.mpr
        exact ⟨(speaker, seg), List.mem_filter.mpr ⟨mem_of_lookupA _ _ _ hseg, hdueB⟩, rfl⟩
      · exact lookupA_filter_of_drop _ _ _ _ hnd hseg (by simp [hdueB])
    · intro hdue
      have hdueB : draftDue cfg now seg = false := by
        simp only [draftDue, Bool.or_eq_false_iff, decide_eq_false_iff_not]
        exact not_or.mp hdue
      exact lookupA_filter_of_keep _ _ _ _ hseg (by simp [hdueB])
  · decide

/-- Witness for C4's universally quantified part: a draft that is neither
idle nor over the cap is retained; with a later `now` it is flushed and
removed. -/
theorem c4_flush_idle_or_cap_witness :
    lookupA (flush_ready defaultConfig ⟨[("C".toList, ⟨[], "yo".toList, 0, 1⟩)], []⟩ 2).2.segments
        "C".toList = some ⟨[], "yo".toList, 0, 1⟩ ∧
    ("C".toList, "yo".toList, (1 : ℚ)) ∈
        (flush_ready defaultConfig ⟨[("C".toList, ⟨[], "yo".toList, 0, 1⟩)], []⟩ 3).1 := by
  constructor
  · exact (c4_flush_idle_or_cap.1 defaultConfig ⟨[("C".toList, ⟨[], "yo".toList, 0, 1⟩)], []⟩ 2
      "C".toList ⟨[], "yo".toList, 0, 1⟩ (by decide) (by decide)).2 (by decide)
  · exact ((c4_flush_idle_or_cap.1 defaultConfig ⟨[("C".toList, ⟨[], "yo".toList, 0, 1⟩)], []⟩ 3
      "C".toList ⟨[], "yo".toList, 0, 1⟩ (by decide) (by decide)).1 (by decide)).1

/-- C6 counterexample: a completed segment is NOT held for the idle window
measured from its finalization moment.  The draft last updated at t=0 is
split off (finalized) during the update call at t=40; at that very instant
`flush_ready` already hands it to the emitter, although 0 seconds — less
than `idle_seconds` — have elapsed since finalization.  The release test
uses the superseded draft's `updated_at` (here 0), not the finalization
time. -/
theorem c6_finalization_wait_counterexample :
    ("Ann".toList, "Hello".toList, (0 : ℚ)) ∈
      (flush_ready defaultConfig
        (update defaultConfig
          (update defaultConfig ⟨[], []⟩ "Ann".toList "Hello".toList 0 0)
          "Ann".toList "Goodbye".toList 40 40) 40).1 ∧
    ¬ ((40 : ℚ) - 40 ≥ defaultConfig.idle_seconds) := by decide

/-- C6 amended: a queued completed segment is handed to the emitter exactly
when `now` minus the timestamp stored with it is at least `idle_seconds`,
and that stored timestamp is the superseded draft's last-update time — not
the moment the segment was finalized (split off). -/
theorem c6_completed_wait_amended :
    (∀ (cfg : SegConfig) (st : SegState) (now : ℚ),
      (flush_ready cfg st now).2.completed =
          st.completed.filter (fun e => !flushDue cfg now e) ∧
      ∀ e ∈ st.completed, cfg.idle_seconds ≤ now - e.2.2 →
        e ∈ (flush_ready cfg st now).1)
    ∧
    (∀ (cfg : SegConfig) (st : SegState) (speaker text : Str) (seg : Segment) (ts now : ℚ),
      text ≠ [] →
      lookupA st.segments speaker = some seg →
      cfg.force_split_gap_seconds < now - seg.updated_at →
      segment_text seg ≠ [] →
      (update cfg st speaker text ts now).completed =
        st.completed ++ [(speaker, segment_text seg, seg.updated_at)]) := by
  refine ⟨fun cfg st now => ⟨rfl, ?_⟩, ?_⟩
  · intro e he hdue
    apply List.mem_append_left
    refine List.mem_filter.mpr ⟨he, ?_⟩
    simp only [flushDue, decide_eq_true_eq]
    exact hdue
  · intro cfg st speaker text seg ts now htext hseg hfs hne
    rw [update_force_split cfg st speaker text seg ts now htext hseg hfs hne]

/-- Witness for C6's amended statement at concrete inputs. -/
theorem c6_completed_wait_amended_witness :
    (update defaultConfig ⟨[("D".toList, ⟨[], "Hm".toList, 0, 0⟩)], []⟩
        "D".toList "Ok".toList 33 33).completed = [("D".toList, "Hm".toList, 0)] ∧
    ("D".toList, "Hm".toList, (0 : ℚ)) ∈
      (flush_ready defaultConfig ⟨[], [("D".toList, "Hm".toList, 0)]⟩ 33).1 := by
  constructor
  · exact c6_completed_wait_amended.2 defaultConfig ⟨[("D".toList, ⟨[], "Hm".toList, 0, 0⟩)], []⟩
      "D".toList "Ok".toList ⟨[], "Hm".toList, 0, 0⟩ 33 33
      (by decide) (by decide) (by decide) (by decide)
  · exact (c6_completed_wait_amended.1 defaultConfig ⟨[], [("D".toList, "Hm".toList, 0)]⟩ 33).2
      ("D".toList, "Hm".toList, 0) (by decide) (by decide)

/-! ### Periodic delta emitter (bot.py lines 1327-1443) -/

/-- Loop of `_prefix_len(a, b)` (bot.py lines 1391-1411), with `j` the count
of consumed characters of `b`.  On each iteration a whitespace character
makes the scan skip the whole whitespace run and compare a single `' '`;
when the (lowercased) characters agree both positions advance one further
step past the runs; on disagreement the advanced `j` is returned.  The fuel
only bounds the recursion: every step consumes at least one character of
`b`, so `b.length + 1` units are enough and the fuel-0 branch is dead
code. -/
def prefixLenAux : Nat → Str → Str → Nat → Nat
  | 0, _, _, j => j
  | _ + 1, [], _, j => j
  | _ + 1, _ :: _, [], j => j
  | fuel + 1, ca :: ta, cb :: tb, j =>
    let a := ca :: ta
    let b := cb :: tb
    let aSkip := if ca.isWhitespace then (a.takeWhile Char.isWhitespace).length else 0
    let bSkip := if cb.isWhitespace then (b.takeWhile Char.isWhitespace).length else 0
    let ca' := if ca.isWhitespace then ' ' else ca
    let cb' := if cb.isWhitespace then ' ' else cb
    if ca'.toLower = cb'.toLower then
      prefixLenAux fuel (a.drop (aSkip + 1)) (b.drop (bSkip + 1)) (j + bSkip + 1)
    else j + bSkip

/-- `_prefix_len(a, b)` (bot.py lines 1391-1411): the index into `b` after
the case-insensitive, whitespace-run-collapsing common-prefix scan. -/
def prefix_len (a b : Str) : Nat :=
  prefixLenAux (b.length + 1) a b 0

/-- One speaker's step of `_emit_periodic` (bot.py lines 1431-1443), given
`prev = emitted_last_by_speaker.get(speaker, "")` and the current snapshot
`curr`: returns the emission handed to `_emit_final` (if any) and the new
`emitted_last_by_speaker[speaker]` value. -/
def emit_periodic_step (prev curr : Str) : Option Str × Str :=
  let delta := if prev ≠ [] then stripChars (curr.drop (prefix_len prev curr)) else curr
  if delta ≠ [] ∧ 2 ≤ delta.length then (some delta, curr)
  else (none, if prev ≠ [] then prev else curr)

-- sanity: growing snapshot emits only the new (trimmed) suffix
example : emit_periodic_step [] "The plan is".toList =
    (some "The plan is".toList, "The plan is".toList) := by decide
example : prefix_len "The plan is".toList "The plan is to ship".toList = 11 := by decide

/-- C5 counterexample: for the claim's own scenario — previously emitted
"The plan is", new snapshot "The plan is to ship" — the emitted delta is the
whitespace-trimmed suffix "to ship", not the raw suffix " to ship" the claim
promises: the code strips the delta (`curr[k:].strip()`, bot.py line 1435)
before emitting it. -/
theorem c5_delta_counterexample :
    (emit_periodic_step "The plan is".toList "The plan is to ship".toList).1 =
      some "to ship".toList ∧
    some ("to ship".toList) ≠ some (" to ship".toList) := by decide

/-- C5 amended: for a speaker with a previously emitted text, the emitted
delta equals the whitespace-trimmed suffix of the new snapshot after the
common-prefix boundary computed by the case-insensitive,
whitespace-run-collapsing scan (emitted only when that trimmed delta has at
least 2 characters); the claim's scenario emits "to ship" — never a
re-emission of the full string. -/
theorem c5_delta_amended :
    (∀ prev curr : Str, prev ≠ [] →
      (emit_periodic_step prev curr).1 =
        (if stripChars (curr.drop (prefix_len prev curr)) ≠ [] ∧
            2 ≤ (stripChars (curr.drop (prefix_len prev curr))).length then
          some (stripChars (curr.drop (prefix_len prev curr)))
        else none))
    ∧
    emit_periodic_step "The plan is".toList "The plan is to ship".toList =
      (some "to ship".toList, "The plan is to ship".toList) := by
  refine ⟨?_, by decide⟩
  intro prev curr hprev
  unfold emit_periodic_step
  rw [if_pos hprev]
  by_cases h : stripChars (curr.drop (prefix_len prev curr)) ≠ [] ∧
      2 ≤ (stripChars (curr.drop (prefix_len prev curr))).length
  · rw [if_pos h, if_pos h]
  · rw [if_neg h, if_neg h]

/-- Witness for C5's amended statement at a concrete input. -/
theorem c5_delta_amended_witness :
    (emit_periodic_step "abc".toList "abc def".toList).1 =
      (if stripChars ("abc def".toList.drop (prefix_len "abc".toList "abc def".toList)) ≠ [] ∧
          2 ≤ (stripChars ("abc def".toList.drop
                (prefix_len "abc".toList "abc def".toList))).length then
        some (stripChars ("abc def".toList.drop (prefix_len "abc".toList "abc def".toList)))
      else none) :=
  c5_delta_amended.1 "abc".toList "abc def".toList (by decide)

/-- C7 counterexample: when the computed delta is too short to emit, the
last-snapshot bookkeeping is NOT updated to the latest observed text — the
code keeps the previously emitted text (`prev or curr`, bot.py line 1443):
with previously emitted "ab" and snapshot "ab c" (delta "c", trimmed length
1 < 2) nothing is emitted and the bookkeeping stays "ab", which differs from
the latest observed "ab c". -/
theorem c7_short_delta_counterexample :
    emit_periodic_step "ab".toList "ab c".toList = (none, "ab".toList) ∧
    "ab".toList ≠ "ab c".toList := by decide

/-- C7 amended: on a tick whose delta fails the 2-character test nothing is
emitted, and the bookkeeping is set to the previously emitted text when that
is non-empty (left unchanged, so unsent text is still owed), and to the
latest observed text only when there was no previous emission. -/
theorem c7_short_delta_amended (prev curr : Str)
    (hshort : ¬ ((if prev ≠ [] then stripChars (curr.drop (prefix_len prev curr))
        else curr) ≠ [] ∧
      2 ≤ (if prev ≠ [] then stripChars (curr.drop (prefix_len prev curr))
        else curr).length)) :
    emit_periodic_step prev curr = (none, if prev ≠ [] then prev else curr) := by
  unfold emit_periodic_step
  rw [if_neg hshort]

/-- Witness for C7's amended statement at a concrete input. -/
theorem c7_short_delta_amended_witness :
    emit_periodic_step "xy".toList "xy z".toList =
      (none, if ("xy".toList : Str) ≠ [] then "xy".toList else "xy z".toList) :=
  c7_short_delta_amended "xy".toList "xy z".toList (by decide)

/-! ### Dedup gate (`_emit_final`, bot.py lines 1340-1356) -/

/-- `DEDUP_WINDOW_SECONDS = 2.0` (bot.py line 58). -/
def DEDUP_WINDOW_SECONDS : ℚ := 2

/-- The global `LAST_SENT` table: dedupe key -> last emission timestamp. -/
abbrev DedupMap := List (Str × ℚ)

/-- The memory-bound sweep (bot.py lines 1351-1356): once the table exceeds
5000 entries, drop every entry older than 120 seconds. -/
def prune (m : DedupMap) (now : ℚ) : DedupMap :=
  if 5000 < m.length then m.filter (fun e => !decide (e.2 < now - 120)) else m

/-- `dedupe_key in LAST_SENT and now - LAST_SENT.get(dedupe_key, 0) <
DEDUP_WINDOW_SECONDS` (bot.py line 1348). -/
def dedupHit (m : DedupMap) (key : Str) (now : ℚ) : Bool :=
  match lookupA m key with
  | some t => decide (now - t < DEDUP_WINDOW_SECONDS)
  | none => false

/-- The dedup/record head of `_emit_final` (bot.py lines 1340-1356): strip
the inputs, ignore empty text, drop silently on a dedup hit, otherwise
record `key -> now` (pruning if oversized) and emit.  The returned option is
what reaches the downstream sink (console/backend/log). -/
def emit_final (m : DedupMap) (speaker text : Str) (now : ℚ) :
    Option (Str × Str) × DedupMap :=
  if stripChars text = [] then (none, m)
  else if dedupHit m (stripChars speaker ++ '|' :: stripChars text) now then (none, m)
  else (some (stripChars speaker, stripChars text),
        prune (setA m (stripChars speaker ++ '|' :: stripChars text) now) now)

theorem lookupA_setA_self {α β : Type} [DecidableEq α] (m : List (α × β)) (k : α) (v : β) :
    lookupA (setA m k v) k = some v := by
  induction m with
  | nil => simp [setA, lookupA]
  | cons e rest ih =>
    obtain ⟨k', v'⟩ := e
    by_cases hk : k' = k
    · simp [setA, hk, lookupA]
    · simp [setA, hk, lookupA, ih]

/-- After recording `key -> now`, the key is found with value `now` even if
the oversize sweep ran: the fresh entry is never older than the cutoff. -/
theorem lookupA_prune_setA (m : DedupMap) (k : Str) (now : ℚ) :
    lookupA (prune (setA m k now) now) k = some now := by
  unfold prune
  split_ifs with h
  · refine lookupA_filter_of_keep _ _ _ _ (lookupA_setA_self m k now) ?_
    simp only [Bool.not_eq_true']
    exact decide_eq_false (by linarith)
  · exact lookupA_setA_self m k now

/-- C8: emitting the same `(speaker, text)` pair twice, the second attempt
within `DEDUP_WINDOW_SECONDS` of a first attempt that was emitted, yields
exactly one downstream emission: the first call emits and records the key,
the second is silently dropped. -/
theorem c8_dedup_idempotent (m : DedupMap) (speaker text : Str) (t0 t1 : ℚ)
    (hfirst : (emit_final m speaker text t0).1 ≠ none)
    (hwin : t1 - t0 < DEDUP_WINDOW_SECONDS) :
    (emit_final m speaker text t0).1 = some (stripChars speaker, stripChars text) ∧
    (emit_final (emit_final m speaker text t0).2 speaker text t1).1 = none := by
  by_cases htxt : stripChars text = []
  · exact absurd (by unfold emit_final; rw [if_pos htxt]) hfirst
  by_cases hhit : dedupHit m (stripChars speaker ++ '|' :: stripChars text) t0 = true
  · exact absurd (by unfold emit_final; rw [if_neg htxt, if_pos hhit]) hfirst
  have hres : emit_final m speaker text t0 =
      (some (stripChars speaker, stripChars text),
       prune (setA m (stripChars speaker ++ '|' :: stripChars text) t0) t0) := by
    unfold emit_final
    rw [if_neg htxt, if_neg hhit]
  have hhit2 : dedupHit (prune (setA m (stripChars speaker ++ '|' :: stripChars text) t0) t0)
      (stripChars speaker ++ '|' :: stripChars text) t1 = true := by
    unfold dedupHit
    rw [lookupA_prune_setA]
    exact decide_eq_true hwin
  refine ⟨by rw [hres], ?_⟩
  rw [hres]
  unfold emit_final
  rw [if_neg htxt, if_pos hhit2]

/-- Witness for C8 at concrete inputs: two attempts 1 second apart. -/
theorem c8_dedup_idempotent_witness :
    (emit_final [] "Al".toList "hi".toList 0).1 =
      some (stripChars "Al".toList, stripChars "hi".toList) ∧
    (emit_final (emit_final [] "Al".toList "hi".toList 0).2 "Al".toList "hi".toList 1).1 =
      none :=
  c8_dedup_idempotent [] "Al".toList "hi".toList 0 1 (by decide) (by decide)

/-- C10: a dropped attempt does not refresh the key's recorded timestamp —
the second (suppressed) call leaves the table untouched, so a third
identical attempt at least `DEDUP_WINDOW_SECONDS` after the first (emitted)
attempt is emitted again even though a dropped attempt lay in between. -/
theorem c10_drop_does_not_refresh (m : DedupMap) (speaker text : Str) (t0 t1 t2 : ℚ)
    (hfirst : (emit_final m speaker text t0).1 ≠ none)
    (hwin : t1 - t0 < DEDUP_WINDOW_SECONDS)
    (hlate : DEDUP_WINDOW_SECONDS ≤ t2 - t0) :
    (emit_final (emit_final m speaker text t0).2 speaker text t1).2 =
      (emit_final m speaker text t0).2 ∧
    (emit_final (emit_final (emit_final m speaker text t0).2 speaker text t1).2
        speaker text t2).1 = some (stripChars speaker, stripChars text) := by
  by_cases htxt : stripChars text = []
  · exact absurd (by unfold emit_final; rw [if_pos htxt]) hfirst
  by_cases hhit : dedupHit m (stripChars speaker ++ '|' :: stripChars text) t0 = true
  · exact absurd (by unfold emit_final; rw [if_neg htxt, if_pos hhit]) hfirst
  have hres : emit_final m speaker text t0 =
      (some (stripChars speaker, stripChars text),
       prune (setA m (stripChars speaker ++ '|' :: stripChars text) t0) t0) := by
    unfold emit_final
    rw [if_neg htxt, if_neg hhit]
  have hl : lookupA (prune (setA m (stripChars speaker ++ '|' :: stripChars text) t0) t0)
      (stripChars speaker ++ '|' :: stripChars text) = some t0 := lookupA_prune_setA m _ t0
  have hhit1 : dedupHit (prune (setA m (stripChars speaker ++ '|' :: stripChars text) t0) t0)
      (stripChars speaker ++ '|' :: stripChars text) t1 = true := by
    unfold dedupHit
    rw [hl]
    exact decide_eq_true hwin
  have hdrop : emit_final (emit_final m speaker text t0).2 speaker text t1 =
      (none, (emit_final m speaker text t0).2) := by
    rw [hres]
    unfold emit_final
    rw [if_neg htxt, if_pos hhit1]
  have hhit2 : dedupHit (prune (setA m (stripChars speaker ++ '|' :: stripChars text) t0) t0)
      (stripChars speaker ++ '|' :: stripChars text) t2 = false := by
    unfold dedupHit
    rw [hl]
    exact decide_eq_false (not_lt.mpr hlate)
  refine ⟨by rw [hdrop], ?_⟩
  rw [hdrop, hres]
  unfold emit_final
  rw [if_neg htxt, if_neg (by rw [hhit2]; exact Bool.false_ne_true)]

/-- Witness for C10 at concrete inputs: attempts at t=0 (emitted), t=1
(dropped) and t=5 (emitted again). -/
theorem c10_drop_does_not_refresh_witness :
    (emit_final (emit_final [] "Bo".toList "yo".toList 0).2 "Bo".toList "yo".toList 1).2 =
      (emit_final [] "Bo".toList "yo".toList 0).2 ∧
    (emit_final (emit_final (emit_final [] "Bo".toList "yo".toList 0).2
        "Bo".toList "yo".toList 1).2 "Bo".toList "yo".toList 5).1 =
      some (stripChars "Bo".toList, stripChars "yo".toList) :=
  c10_drop_does_not_refresh [] "Bo".toList "yo".toList 0 1 5
    (by decide) (by decide) (by decide)

end CaptionBot
